import Mathlib

/- Verification development for the Aegis VM Manager.
   The frontend (frontend/js/api.js, frontend/js/console.js) is embedded
   directly from the JavaScript source.  The backend core (VM Registry and
   State Machine, Resource Governor, Console Port Allocator, Liveness
   Supervisor) ships as a Rust binary that is not part of the source tree,
   so its operations are modelled from the specification text. -/

namespace Aegis

/-- Modelled from the spec: the five lifecycle states of a VM
(section 3, LifecycleState); the backend source is missing. -/
inductive LifecycleState
  | Stopped
  | Starting
  | Running
  | Stopping
  | Error
deriving DecidableEq, Repr

/-- Modelled from the spec: the declared configuration of a VM (section 3);
field names follow the JSON payload used by the frontend (api.js createVM). -/
structure VmConfig where
  name : String
  memory_mb : Nat
  cpu_cores : Nat
  disk_size_gb : Nat
  iso_path : String
deriving DecidableEq, Repr

/-- Modelled from the spec: a VM record: declared configuration plus mutable
runtime state (section 3, VirtualMachine); the backend source is missing. -/
structure VM where
  config : VmConfig
  state : LifecycleState
  pid : Option Nat
  port : Option Nat
  exitReason : Option String
deriving DecidableEq, Repr

/-- Modelled from the spec: the sub-reasons of a spawn failure (section 4.4). -/
inductive SpawnError
  | binaryNotFound
  | permissionDenied
  | launchFailed
deriving DecidableEq, Repr

/-- Modelled from the spec: the error taxonomy of section 7. -/
inductive VmError
  | notFound
  | invalidConfig
  | quotaExceeded
  | invalidTransition
  | spawnFailed (e : SpawnError)
  | portExhausted
  | internalInconsistency
deriving DecidableEq, Repr

/-- Modelled from the spec: the Resource Ledger counters (section 3):
aggregate memory, vCPU and disk of admitted VMs plus the count of
allocated console ports. -/
structure Ledger where
  memory_mb : Nat
  cpu_cores : Nat
  disk_gb : Nat
  ports : Nat
deriving DecidableEq, Repr

/-- Modelled from the spec: the bounded Console Port Pool (sections 3, 4.3),
kept as a free list plus the list of ports currently handed out. -/
structure PortPool where
  free : List Nat
  allocated : List Nat
deriving DecidableEq, Repr

/-- Modelled from the spec: the configured ceilings supplied at startup
(section 6, configuration source; README limits table). -/
structure Limits where
  max_vms : Nat
  max_memory_mb : Nat
  max_cpu_cores : Nat
  max_disk_gb : Nat
deriving DecidableEq, Repr

/-- Modelled from the spec: events published to the Event Broadcaster
(sections 4.5, 4.6). -/
inductive Event
  | stateChanged (id : Nat) (s : LifecycleState)
  | unexpectedExit (id : Nat) (reason : String)
deriving DecidableEq, Repr

/-- Modelled from the spec: the shared state of the core: the registry map,
the fresh-id counter, the Resource Ledger, the Console Port Pool and the
stream of published events (sections 3 and 5). -/
structure CoreState where
  regy : List (Nat × VM)
  nextId : Nat
  ledger : Ledger
  pool : PortPool
  events : List Event
deriving DecidableEq, Repr

/-- Modelled from the spec: the Resource Governor admission check
(section 4.2, try_reserve): every dimension is checked against its ceiling
before any counter is committed; on any violation nothing changes. -/
def tryReserve (lim : Limits) (led : Ledger) (m v d : Nat) : Option Ledger :=
  if led.memory_mb + m ≤ lim.max_memory_mb
      ∧ led.cpu_cores + v ≤ lim.max_cpu_cores
      ∧ led.disk_gb + d ≤ lim.max_disk_gb then
    some { memory_mb := led.memory_mb + m, cpu_cores := led.cpu_cores + v,
           disk_gb := led.disk_gb + d, ports := led.ports }
  else
    none

/-- Modelled from the spec: releasing a reservation from the ledger
(section 4.2, release), including the console-port count. -/
def releaseVmLedger (led : Ledger) (vm : VM) : Ledger :=
  { memory_mb := led.memory_mb - vm.config.memory_mb,
    cpu_cores := led.cpu_cores - vm.config.cpu_cores,
    disk_gb := led.disk_gb - vm.config.disk_size_gb,
    ports := led.ports - 1 }

/-- Modelled from the spec: the Console Port Allocator handing out the next
free port (section 4.3, allocate). -/
def allocatePort (p : PortPool) : Option (Nat × PortPool) :=
  match p.free with
  | [] => none
  | q :: rest => some (q, { free := rest, allocated := q :: p.allocated })

/-- Modelled from the spec: returning a port to the pool (section 4.3,
release); the caller must hold the port. -/
def releasePort (p : PortPool) (q : Nat) : PortPool :=
  { free := q :: p.free, allocated := p.allocated.erase q }

/-- Modelled from the spec: releasing the console port held by a VM, a no-op
for a VM that holds none. -/
def releaseVmPool (pool : PortPool) (vm : VM) : PortPool :=
  match vm.port with
  | some p => releasePort pool p
  | none => pool

/-- Lookup of the first registry entry with the given id. -/
def lookupVm : List (Nat × VM) → Nat → Option VM
  | [], _ => none
  | (k, vm) :: rest, id => if k = id then some vm else lookupVm rest id

/-- Replace the first registry entry with the given id. -/
def setVm : List (Nat × VM) → Nat → VM → List (Nat × VM)
  | [], _, _ => []
  | (k, vm) :: rest, id, v => if k = id then (k, v) :: rest else (k, vm) :: setVm rest id v

/-- Remove the first registry entry with the given id. -/
def removeVm : List (Nat × VM) → Nat → List (Nat × VM)
  | [], _ => []
  | (k, vm) :: rest, id => if k = id then rest else (k, vm) :: removeVm rest id

/-- A VM counts against the ledger exactly while Starting or Running. -/
def isActive (vm : VM) : Bool :=
  match vm.state with
  | LifecycleState.Starting => true
  | LifecycleState.Running => true
  | _ => false

/-- Contribution of one VM to an aggregate ledger counter. -/
def contrib (f : VmConfig → Nat) (vm : VM) : Nat :=
  if isActive vm then f vm.config else 0

/-- Sum of a declared-configuration field over the Starting and Running VMs
of the registry. -/
def sumActive (f : VmConfig → Nat) : List (Nat × VM) → Nat
  | [] => 0
  | (_, vm) :: rest => contrib f vm + sumActive f rest

/-- Modelled from the spec: a freshly created VM enters Stopped with no
process identifier and no console port (sections 3 and 4.1). -/
def freshVm (cfg : VmConfig) : VM :=
  { config := cfg, state := LifecycleState.Stopped, pid := none, port := none,
    exitReason := none }

/-- Runtime fields of a VM whose start reservation has just been committed:
Starting, holding port p, not yet owning a process. -/
def startingVm (vm : VM) (p : Nat) : VM :=
  { vm with
    state := LifecycleState.Starting
    port := some p
    pid := none
    exitReason := none }

/-- Runtime fields after a stop completed: Stopped, process and port
released. -/
def stoppedVm (vm : VM) : VM :=
  { vm with state := LifecycleState.Stopped, pid := none, port := none }

/-- Runtime fields after a spawn failure: Error, reservation and port rolled
back (section 4.1, start failure path). -/
def failedVm (vm : VM) : VM :=
  { vm with state := LifecycleState.Error, pid := none, port := none }

/-- Runtime fields after the Liveness Supervisor observed an unexpected
process exit: Error with the captured exit reason (section 4.5). -/
def crashedVm (vm : VM) (reason : String) : VM :=
  { vm with
    state := LifecycleState.Error
    pid := none
    port := none
    exitReason := some reason }

/-- Modelled from the spec: create validates the configuration (zero memory
or zero vCPU is InvalidConfig), dry-runs Governor admission and the VM-count
ceiling (QuotaExceeded on failure), then stores the VM in Stopped under a
fresh id (section 4.1, create); the backend source is missing. -/
def create (lim : Limits) (cfg : VmConfig) (st : CoreState) :
    Except VmError Nat × CoreState :=
  if cfg.memory_mb = 0 ∨ cfg.cpu_cores = 0 then
    (Except.error VmError.invalidConfig, st)
  else if st.regy.length < lim.max_vms
      ∧ (tryReserve lim st.ledger cfg.memory_mb cfg.cpu_cores cfg.disk_size_gb).isSome then
    (Except.ok st.nextId,
      { st with
        regy := (st.nextId, freshVm cfg) :: st.regy
        nextId := st.nextId + 1
        events := st.events ++ [Event.stateChanged st.nextId LifecycleState.Stopped] })
  else
    (Except.error VmError.quotaExceeded, st)

/-- Modelled from the spec: the first half of start (section 4.1): only
valid from Stopped or Error; atomically reserves resources in the Governor
and a console port, moving the VM to Starting.  A failed reservation or an
exhausted pool leaves everything untouched. -/
def startBegin (lim : Limits) (id : Nat) (st : CoreState) :
    Except VmError Unit × CoreState :=
  match lookupVm st.regy id with
  | none => (Except.error VmError.notFound, st)
  | some vm =>
    match vm.state with
    | LifecycleState.Stopped | LifecycleState.Error =>
      match tryReserve lim st.ledger vm.config.memory_mb vm.config.cpu_cores
          vm.config.disk_size_gb with
      | none => (Except.error VmError.quotaExceeded, st)
      | some led =>
        match allocatePort st.pool with
        | none => (Except.error VmError.portExhausted, st)
        | some (p, pool) =>
          (Except.ok (),
            { st with
              regy := setVm st.regy id (startingVm vm p)
              ledger := { led with ports := led.ports + 1 }
              pool := pool
              events := st.events ++ [Event.stateChanged id LifecycleState.Starting] })
    | _ => (Except.error VmError.invalidTransition, st)

/-- Modelled from the spec: the second half of start (section 4.1): the
spawn outcome of the Hypervisor Process Adapter is resolved.  On success the
process identifier is recorded and the VM becomes Running; on failure the
reservations and the port are released and the VM moves to Error, surfacing
the adapter failure reason. -/
def startFinish (spawn : Except SpawnError Nat) (id : Nat) (st : CoreState) :
    Except VmError Unit × CoreState :=
  match lookupVm st.regy id with
  | none => (Except.error VmError.notFound, st)
  | some vm =>
    match vm.state with
    | LifecycleState.Starting =>
      match spawn with
      | Except.ok pid =>
        (Except.ok (),
          { st with
            regy := setVm st.regy id
              { vm with state := LifecycleState.Running, pid := some pid }
            events := st.events ++ [Event.stateChanged id LifecycleState.Running] })
      | Except.error e =>
        (Except.error (VmError.spawnFailed e),
          { st with
            regy := setVm st.regy id (failedVm vm)
            ledger := releaseVmLedger st.ledger vm
            pool := releaseVmPool st.pool vm
            events := st.events ++ [Event.stateChanged id LifecycleState.Error] })
    | _ => (Except.error VmError.invalidTransition, st)

/-- Modelled from the spec: start as seen by a caller: the two halves run
back to back under the per-VM serialization token (sections 4.1 and 5). -/
def start (lim : Limits) (spawn : Except SpawnError Nat) (id : Nat) (st : CoreState) :
    Except VmError Unit × CoreState :=
  match startBegin lim id st with
  | (Except.ok _, st1) => startFinish spawn id st1
  | (Except.error e, st1) => (Except.error e, st1)

/-- Whether the process exited within the grace period: graceful shutdown,
otherwise the forced-termination fallback engaged (sections 4.1 and 5). -/
inductive StopMode
  | graceful
  | forced
deriving DecidableEq, Repr

/-- Modelled from the spec: which stop path is taken given the configured
grace period and the instant (if any) at which the process exits on its own. -/
def stopMode (grace : Nat) (exitWithin : Option Nat) : StopMode :=
  match exitWithin with
  | some t => if t ≤ grace then StopMode.graceful else StopMode.forced
  | none => StopMode.forced

/-- Modelled from the spec: stop (section 4.1): only valid from Running;
requests graceful termination with a bounded grace period, escalating to
forced termination on expiry (a defined fallback, not an error), then
releases the reservation and the port and parks the VM in Stopped. -/
def stop (grace : Nat) (exitWithin : Option Nat) (id : Nat) (st : CoreState) :
    Except VmError StopMode × CoreState :=
  match lookupVm st.regy id with
  | none => (Except.error VmError.notFound, st)
  | some vm =>
    match vm.state with
    | LifecycleState.Running =>
      (Except.ok (stopMode grace exitWithin),
        { st with
          regy := setVm st.regy id (stoppedVm vm)
          ledger := releaseVmLedger st.ledger vm
          pool := releaseVmPool st.pool vm
          events := st.events ++ [Event.stateChanged id LifecycleState.Stopped] })
    | _ => (Except.error VmError.invalidTransition, st)

/-- Modelled from the spec: delete (section 4.1): unknown ids are NotFound,
never a silent success; a Running VM is implicitly stopped first; otherwise
the record is removed.  An in-flight transition is serialized before the
delete, so Starting and Stopping reject with InvalidTransition here. -/
def delete (grace : Nat) (exitWithin : Option Nat) (id : Nat) (st : CoreState) :
    Except VmError Unit × CoreState :=
  match lookupVm st.regy id with
  | none => (Except.error VmError.notFound, st)
  | some vm =>
    match vm.state with
    | LifecycleState.Running =>
      match stop grace exitWithin id st with
      | (Except.ok _, st1) => (Except.ok (), { st1 with regy := removeVm st1.regy id })
      | (Except.error e, st1) => (Except.error e, st1)
    | LifecycleState.Stopped | LifecycleState.Error =>
      (Except.ok (), { st with regy := removeVm st.regy id })
    | _ => (Except.error VmError.invalidTransition, st)

/-- Modelled from the spec: the Liveness Supervisor reaction to an
out-of-band process exit (section 4.5): if the VM is still Running, release
its reservation and console port, move it to Error with the captured exit
reason and publish exactly one event; in every other state the exit was
already accounted for and nothing happens. -/
def superviseExit (id : Nat) (reason : String) (st : CoreState) : CoreState :=
  match lookupVm st.regy id with
  | none => st
  | some vm =>
    match vm.state with
    | LifecycleState.Running =>
      { st with
        regy := setVm st.regy id (crashedVm vm reason)
        ledger := releaseVmLedger st.ledger vm
        pool := releaseVmPool st.pool vm
        events := st.events ++ [Event.unexpectedExit id reason] }
    | _ => st

/-- One serialized mutating step of the core: a lifecycle request half or a
supervisor transition (section 5: per-VM serialization totally orders them). -/
inductive Op
  | create (cfg : VmConfig)
  | startBegin (id : Nat)
  | startFinish (spawn : Except SpawnError Nat) (id : Nat)
  | stop (grace : Nat) (exitWithin : Option Nat) (id : Nat)
  | delete (grace : Nat) (exitWithin : Option Nat) (id : Nat)
  | procExit (id : Nat) (reason : String)

/-- Effect of one serialized step on the shared state. -/
def step (lim : Limits) (st : CoreState) (op : Op) : CoreState :=
  match op with
  | Op.create cfg => (create lim cfg st).2
  | Op.startBegin id => (startBegin lim id st).2
  | Op.startFinish spawn id => (startFinish spawn id st).2
  | Op.stop g ew id => (stop g ew id st).2
  | Op.delete g ew id => (delete g ew id st).2
  | Op.procExit id r => superviseExit id r st

/-- Modelled from the spec: the state at startup: empty registry, zero
ledger, the configured port range entirely free (section 6). -/
def initState (ports : List Nat) : CoreState :=
  { regy := [], nextId := 0,
    ledger := { memory_mb := 0, cpu_cores := 0, disk_gb := 0, ports := 0 },
    pool := { free := ports, allocated := [] },
    events := [] }

/-- State reached after a sequence of serialized steps from startup. -/
def run (lim : Limits) (ports : List Nat) (ops : List Op) : CoreState :=
  List.foldl (step lim) (initState ports) ops

/-- Per-VM part of the lifecycle invariant: an active (Starting or Running)
VM holds a console port; a Stopped or Error VM holds neither a port nor a
process identifier; only a Running VM may own a process identifier. -/
def VmInv (vm : VM) : Prop :=
  (isActive vm = true → vm.port ≠ none)
  ∧ ((vm.state = LifecycleState.Stopped ∨ vm.state = LifecycleState.Error) →
      vm.port = none ∧ vm.pid = none)
  ∧ (vm.state ≠ LifecycleState.Running → vm.pid = none)

/-- The lifecycle invariant: every ledger counter equals the corresponding
sum of declared resources over the VMs currently Starting or Running, and
every registered VM satisfies the per-VM invariant. -/
def Inv (st : CoreState) : Prop :=
  st.ledger.memory_mb = sumActive (fun c => c.memory_mb) st.regy
  ∧ st.ledger.cpu_cores = sumActive (fun c => c.cpu_cores) st.regy
  ∧ st.ledger.disk_gb = sumActive (fun c => c.disk_size_gb) st.regy
  ∧ st.ledger.ports = sumActive (fun _ => 1) st.regy
  ∧ ∀ e ∈ st.regy, VmInv e.2

/-- A parsed JSON response body as used by api.js: the optional error field
(a string in this protocol) plus an opaque tag standing for the remaining
payload, so that distinct bodies stay distinct. -/
structure JsonData where
  error : Option String
  tag : Nat
deriving DecidableEq, Repr

/-- Decidable equality of parse outcomes. -/
instance exceptDecEq {ε α : Type} [DecidableEq ε] [DecidableEq α] :
    DecidableEq (Except ε α)
  | Except.ok a, Except.ok b =>
    if h : a = b then Decidable.isTrue (by rw [h])
    else Decidable.isFalse (by intro hc; cases hc; exact h rfl)
  | Except.ok _, Except.error _ => Decidable.isFalse (by intro hc; cases hc)
  | Except.error _, Except.ok _ => Decidable.isFalse (by intro hc; cases hc)
  | Except.error a, Except.error b =>
    if h : a = b then Decidable.isTrue (by rw [h])
    else Decidable.isFalse (by intro hc; cases hc; exact h rfl)

/-- An HTTP response as observed by VMApi.request (api.js, lines 14 to 27):
the ok flag, the numeric status and the outcome of parsing the body as JSON
(response.json() either yields a body or rejects). -/
structure HttpResponse where
  ok : Bool
  status : Nat
  json : Except String JsonData
deriving DecidableEq, Repr

/-- JavaScript truthiness of the error field: absent (undefined) and the
empty string are falsy, every other string is truthy. -/
def jsTruthy : Option String → Bool
  | none => false
  | some s => if s = "" then false else true

/-- Error message built by VMApi.request on a non-ok response (api.js,
lines 17 to 23): start from HTTP status, overwrite with the error field of
the parsed body when that parse succeeds and the field is truthy, and
ignore a body that fails to parse as JSON. -/
def requestErrorMsg (resp : HttpResponse) : String :=
  match resp.json with
  | Except.ok body =>
    match body.error with
    | some s => if s = "" then "HTTP " ++ toString resp.status else s
    | none => "HTTP " ++ toString resp.status
  | Except.error _ => "HTTP " ++ toString resp.status

/-- VMApi.request (api.js, lines 6 to 28): on a non-ok response it throws
an Error carrying requestErrorMsg; on an ok response it returns the result
of parsing the body as JSON. -/
def request (resp : HttpResponse) : Except String JsonData :=
  if resp.ok then resp.json else Except.error (requestErrorMsg resp)

/-- VMApi.listVMs (api.js, lines 30 to 32): delegates to request on the
/vms endpoint. -/
def listVMs (resp : HttpResponse) : Except String JsonData := request resp

/-- VMApi.createVM (api.js, lines 34 to 39): delegates to request with a
POST to /vms. -/
def createVM (resp : HttpResponse) : Except String JsonData := request resp

/-- VMApi.startVM (api.js, lines 41 to 45): delegates to request with a
POST to the start endpoint. -/
def startVM (resp : HttpResponse) : Except String JsonData := request resp

/-- VMApi.stopVM (api.js, lines 47 to 51): delegates to request with a
POST to the stop endpoint. -/
def stopVM (resp : HttpResponse) : Except String JsonData := request resp

/-- VMApi.deleteVM (api.js, lines 53 to 57): delegates to request with a
DELETE on the VM resource. -/
def deleteVM (resp : HttpResponse) : Except String JsonData := request resp

/-- VMApi.getVNCUrl (api.js, lines 59 to 61): delegates to request on the
vnc endpoint. -/
def getVNCUrl (resp : HttpResponse) : Except String JsonData := request resp

/-- A JavaScript value held in the state field of a VM object on the
dashboard: either a string or some non-string value (the backend may also
send an object, compare getStatusText in api.js). -/
inductive JsVal
  | str (s : String)
  | nonstr
deriving DecidableEq, Repr

/-- JavaScript strict equality of such a value against a string literal:
true only for the identical string; any non-string compares unequal. -/
def strictEqString : JsVal → String → Bool
  | JsVal.str s, t => if s = t then true else false
  | JsVal.nonstr, _ => false

/-- Observable actions of VMManagerApp.openConsole. -/
inductive UiStep
  | showError (msg : String)
  | vncUrlRequest
  | consoleConstructed
deriving DecidableEq, Repr

/-- VMManagerApp.openConsole (api.js, lines 406 to 423): when the state
field is neither the exact string running nor the exact string Running,
show an error and return; otherwise request the VNC URL via getVNCUrl and
construct a VMConsole, showing an error if that request throws. -/
def openConsole (state : JsVal) (vnc : Except String String) : List UiStep :=
  if (!(strictEqString state "running") && !(strictEqString state "Running")) = true then
    [UiStep.showError "VM must be running to open console"]
  else
    match vnc with
    | Except.ok _ => [UiStep.vncUrlRequest, UiStep.consoleConstructed]
    | Except.error e => [UiStep.vncUrlRequest, UiStep.showError ("Failed to open console: " ++ e)]

/-- Configuration ceilings of the README default.toml limits table, used as
a concrete instantiation. -/
def lim0 : Limits :=
  { max_vms := 10, max_memory_mb := 32768, max_cpu_cores := 16, max_disk_gb := 200 }

/-- The example VM configuration of the README test request. -/
def cfg0 : VmConfig :=
  { name := "test-vm", memory_mb := 512, cpu_cores := 1, disk_size_gb := 10,
    iso_path := "/var/lib/vm-manager/isos/test.iso" }

/-- A small concrete console port range. -/
def ports0 : List Nat := [5900, 5901]

/-- A concrete state holding one Stopped VM under id 0. -/
def stStopped : CoreState :=
  { regy := [(0, freshVm cfg0)], nextId := 1,
    ledger := { memory_mb := 0, cpu_cores := 0, disk_gb := 0, ports := 0 },
    pool := { free := ports0, allocated := [] },
    events := [] }

/-- A concrete state holding one Running VM under id 0 with process 4242
and console port 5900. -/
def vmRunning0 : VM :=
  { config := cfg0, state := LifecycleState.Running, pid := some 4242,
    port := some 5900, exitReason := none }

def stRunning : CoreState :=
  { regy := [(0, vmRunning0)],
    nextId := 1,
    ledger := { memory_mb := 512, cpu_cores := 1, disk_gb := 10, ports := 1 },
    pool := { free := [5901], allocated := [5900] },
    events := [] }

/-- A concrete 404 response whose JSON body carries an error field. -/
def respNotFound : HttpResponse :=
  { ok := false
    status := 404
    json := Except.ok { error := some "VM not found", tag := 0 } }

/-- A successful lookup exhibits a registry entry. -/
theorem lookupVm_mem {l : List (Nat × VM)} {id : Nat} {vm : VM}
    (h : lookupVm l id = some vm) : (id, vm) ∈ l := by
  induction l with
  | nil => simp [lookupVm] at h
  | cons hd tl ih =>
    obtain ⟨k, w⟩ := hd
    simp only [lookupVm] at h
    by_cases hk : k = id
    · rw [if_pos hk] at h
      cases h
      subst hk
      exact List.mem_cons_self _ _
    · rw [if_neg hk] at h
      exact List.mem_cons_of_mem _ (ih h)

/-- Every entry of an updated registry is an old entry or carries the new VM. -/
theorem mem_setVm {l : List (Nat × VM)} {id : Nat} {v : VM} {e : Nat × VM}
    (h : e ∈ setVm l id v) : e ∈ l ∨ e.2 = v := by
  induction l with
  | nil => simp [setVm] at h
  | cons hd tl ih =>
    obtain ⟨k, w⟩ := hd
    simp only [setVm] at h
    by_cases hk : k = id
    · rw [if_pos hk] at h
      rcases List.mem_cons.mp h with h1 | h1
      · right; rw [h1]
      · left; exact List.mem_cons_of_mem _ h1
    · rw [if_neg hk] at h
      rcases List.mem_cons.mp h with h1 | h1
      · left; rw [h1]; exact List.mem_cons_self _ _
      · rcases ih h1 with h2 | h2
        · left; exact List.mem_cons_of_mem _ h2
        · right; exact h2

/-- Every entry surviving a removal was an entry before. -/
theorem mem_removeVm {l : List (Nat × VM)} {id : Nat} {e : Nat × VM}
    (h : e ∈ removeVm l id) : e ∈ l := by
  induction l with
  | nil => simp [removeVm] at h
  | cons hd tl ih =>
    obtain ⟨k, w⟩ := hd
    simp only [removeVm] at h
    by_cases hk : k = id
    · rw [if_pos hk] at h
      exact List.mem_cons_of_mem _ h
    · rw [if_neg hk] at h
      rcases List.mem_cons.mp h with h1 | h1
      · rw [h1]; exact List.mem_cons_self _ _
      · exact List.mem_cons_of_mem _ (ih h1)

/-- Updating the entry found by a lookup makes the lookup return the update. -/
theorem lookupVm_setVm_self {l : List (Nat × VM)} {id : Nat} {vm : VM} (v : VM)
    (h : lookupVm l id = some vm) : lookupVm (setVm l id v) id = some v := by
  induction l with
  | nil => simp [lookupVm] at h
  | cons hd tl ih =>
    obtain ⟨k, w⟩ := hd
    simp only [lookupVm] at h
    by_cases hk : k = id
    · simp [setVm, lookupVm, if_pos hk]
    · rw [if_neg hk] at h
      simp [setVm, lookupVm, if_neg hk, ih h]

/-- Updating one registry entry shifts an aggregate sum by the difference of
the two contributions, stated additively. -/
theorem sumActive_setVm (f : VmConfig → Nat) {l : List (Nat × VM)} {id : Nat}
    {vm : VM} (v : VM) (h : lookupVm l id = some vm) :
    sumActive f (setVm l id v) + contrib f vm = sumActive f l + contrib f v := by
  induction l with
  | nil => simp [lookupVm] at h
  | cons hd tl ih =>
    obtain ⟨k, w⟩ := hd
    simp only [lookupVm] at h
    by_cases hk : k = id
    · rw [if_pos hk] at h
      cases h
      simp only [setVm, if_pos hk, sumActive]
      omega
    · rw [if_neg hk] at h
      simp only [setVm, if_neg hk, sumActive]
      have := ih h
      omega

/-- Removing the entry found by a lookup subtracts its contribution from an
aggregate sum, stated additively. -/
theorem sumActive_removeVm (f : VmConfig → Nat) {l : List (Nat × VM)} {id : Nat}
    {vm : VM} (h : lookupVm l id = some vm) :
    sumActive f (removeVm l id) + contrib f vm = sumActive f l := by
  induction l with
  | nil => simp [lookupVm] at h
  | cons hd tl ih =>
    obtain ⟨k, w⟩ := hd
    simp only [lookupVm] at h
    by_cases hk : k = id
    · rw [if_pos hk] at h
      cases h
      simp only [removeVm, if_pos hk, sumActive]
      omega
    · rw [if_neg hk] at h
      simp only [removeVm, if_neg hk, sumActive]
      have := ih h
      omega

/-- Updating an entry never changes the key list of the registry. -/
theorem keys_setVm (l : List (Nat × VM)) (id : Nat) (v : VM) :
    (setVm l id v).map Prod.fst = l.map Prod.fst := by
  induction l with
  | nil => simp [setVm]
  | cons hd tl ih =>
    obtain ⟨k, w⟩ := hd
    simp only [setVm]
    by_cases hk : k = id
    · rw [if_pos hk]
      simp
    · rw [if_neg hk]
      simp [ih]

/-- A key absent from the registry makes the lookup fail. -/
theorem lookupVm_eq_none_of_not_mem {l : List (Nat × VM)} {id : Nat}
    (h : id ∉ l.map Prod.fst) : lookupVm l id = none := by
  induction l with
  | nil => rfl
  | cons hd tl ih =>
    obtain ⟨k, w⟩ := hd
    simp only [List.map, List.mem_cons] at h
    push_neg at h
    have hk : ¬ (k = id) := fun he => h.1 he.symm
    simp only [lookupVm, if_neg hk]
    exact ih h.2

/-- Removing a key from a duplicate-free registry makes its lookup fail. -/
theorem lookupVm_removeVm_self {l : List (Nat × VM)} {id : Nat}
    (h : (l.map Prod.fst).Nodup) : lookupVm (removeVm l id) id = none := by
  induction l with
  | nil => rfl
  | cons hd tl ih =>
    obtain ⟨k, w⟩ := hd
    simp only [List.map, List.nodup_cons] at h
    by_cases hk : k = id
    · simp only [removeVm, if_pos hk]
      subst hk
      exact lookupVm_eq_none_of_not_mem h.1
    · simp only [removeVm, if_neg hk, lookupVm, if_neg hk]
      exact ih h.2

/-- Contribution of a VM that is neither Starting nor Running is zero. -/
theorem contrib_eq_zero (f : VmConfig → Nat) {vm : VM} (h : isActive vm = false) :
    contrib f vm = 0 := by
  simp [contrib, h]

/-- Contribution of a Starting or Running VM is its declared resource. -/
theorem contrib_eq (f : VmConfig → Nat) {vm : VM} (h : isActive vm = true) :
    contrib f vm = f vm.config := by
  simp [contrib, h]

/-- The declared configuration survives the transition to Starting. -/
theorem startingVm_config (vm : VM) (p : Nat) : (startingVm vm p).config = vm.config := rfl

/-- The lifecycle invariant holds after committing a start reservation:
the inactive VM found under the id becomes Starting with a port and every
ledger counter grows by its declared resource. -/
theorem inv_afterStartCommit {st : CoreState} {id : Nat} {vm : VM} (p nid : Nat)
    (pool2 : PortPool) (ev : List Event)
    (h : Inv st) (hl : lookupVm st.regy id = some vm) (hact : isActive vm = false) :
    Inv { regy := setVm st.regy id (startingVm vm p), nextId := nid,
          ledger := { memory_mb := st.ledger.memory_mb + vm.config.memory_mb,
                      cpu_cores := st.ledger.cpu_cores + vm.config.cpu_cores,
                      disk_gb := st.ledger.disk_gb + vm.config.disk_size_gb,
                      ports := st.ledger.ports + 1 },
          pool := pool2, events := ev } := by
  obtain ⟨hm, hc, hd, hp, hvm⟩ := h
  have ha : isActive (startingVm vm p) = true := by simp [isActive, startingVm]
  refine ⟨?_, ?_, ?_, ?_, ?_⟩
  · have h1 := sumActive_setVm (fun c => c.memory_mb) (startingVm vm p) hl
    simp only [contrib_eq_zero _ hact, contrib_eq _ ha, startingVm_config] at h1
    show st.ledger.memory_mb + vm.config.memory_mb = sumActive (fun c => c.memory_mb) (setVm st.regy id (startingVm vm p))
    omega
  · have h1 := sumActive_setVm (fun c => c.cpu_cores) (startingVm vm p) hl
    simp only [contrib_eq_zero _ hact, contrib_eq _ ha, startingVm_config] at h1
    show st.ledger.cpu_cores + vm.config.cpu_cores = sumActive (fun c => c.cpu_cores) (setVm st.regy id (startingVm vm p))
    omega
  · have h1 := sumActive_setVm (fun c => c.disk_size_gb) (startingVm vm p) hl
    simp only [contrib_eq_zero _ hact, contrib_eq _ ha, startingVm_config] at h1
    show st.ledger.disk_gb + vm.config.disk_size_gb = sumActive (fun c => c.disk_size_gb) (setVm st.regy id (startingVm vm p))
    omega
  · have h1 := sumActive_setVm (fun _ => 1) (startingVm vm p) hl
    simp only [contrib_eq_zero _ hact, contrib_eq _ ha] at h1
    show st.ledger.ports + 1 = sumActive (fun _ => 1) (setVm st.regy id (startingVm vm p))
    omega
  · intro e he
    rcases mem_setVm he with h2 | h2
    · exact hvm e h2
    · rw [h2]
      refine ⟨?_, ?_, ?_⟩
      · intro _
        simp [startingVm]
      · intro hcontra
        simp [startingVm] at hcontra
      · intro _
        simp [startingVm]

/-- The lifecycle invariant holds after an active VM releases its resources:
its registry entry becomes an inactive record with no port and no process,
and every ledger counter shrinks by its declared resource. -/
theorem inv_afterRelease {st : CoreState} {id : Nat} {vm : VM} {v : VM}
    (nid : Nat) (pool2 : PortPool) (ev : List Event)
    (h : Inv st) (hl : lookupVm st.regy id = some vm) (hact : isActive vm = true)
    (hv : isActive v = false) (hvp : v.port = none) (hvq : v.pid = none)
    (_hcfg : v.config = vm.config) :
    Inv { regy := setVm st.regy id v, nextId := nid,
          ledger := releaseVmLedger st.ledger vm, pool := pool2, events := ev } := by
  obtain ⟨hm, hc, hd, hp, hvm⟩ := h
  refine ⟨?_, ?_, ?_, ?_, ?_⟩
  · have h1 := sumActive_setVm (fun c => c.memory_mb) v hl
    simp only [contrib_eq _ hact, contrib_eq_zero _ hv] at h1
    show st.ledger.memory_mb - vm.config.memory_mb = sumActive (fun c => c.memory_mb) (setVm st.regy id v)
    omega
  · have h1 := sumActive_setVm (fun c => c.cpu_cores) v hl
    simp only [contrib_eq _ hact, contrib_eq_zero _ hv] at h1
    show st.ledger.cpu_cores - vm.config.cpu_cores = sumActive (fun c => c.cpu_cores) (setVm st.regy id v)
    omega
  · have h1 := sumActive_setVm (fun c => c.disk_size_gb) v hl
    simp only [contrib_eq _ hact, contrib_eq_zero _ hv] at h1
    show st.ledger.disk_gb - vm.config.disk_size_gb = sumActive (fun c => c.disk_size_gb) (setVm st.regy id v)
    omega
  · have h1 := sumActive_setVm (fun _ => 1) v hl
    simp only [contrib_eq _ hact, contrib_eq_zero _ hv] at h1
    show st.ledger.ports - 1 = sumActive (fun _ => 1) (setVm st.regy id v)
    omega
  · intro e he
    rcases mem_setVm he with h2 | h2
    · exact hvm e h2
    · rw [h2]
      refine ⟨?_, fun _ => ⟨hvp, hvq⟩, fun _ => hvq⟩
      intro hcontra
      rw [hv] at hcontra
      cases hcontra

/-- The lifecycle invariant holds after a Starting VM moves to Running: the
new record is still active with the same declared configuration and keeps
its console port, so no counter moves. -/
theorem inv_afterSwap {st : CoreState} {id : Nat} {vm : VM} {v : VM}
    (nid : Nat) (pool2 : PortPool) (ev : List Event)
    (h : Inv st) (hl : lookupVm st.regy id = some vm)
    (hact : isActive vm = true) (hv : isActive v = true)
    (hcfg : v.config = vm.config) (hvp : v.port ≠ none)
    (hvrun : v.state = LifecycleState.Running) :
    Inv { regy := setVm st.regy id v, nextId := nid,
          ledger := st.ledger, pool := pool2, events := ev } := by
  obtain ⟨hm, hc, hd, hp, hvm⟩ := h
  refine ⟨?_, ?_, ?_, ?_, ?_⟩
  · have h1 := sumActive_setVm (fun c => c.memory_mb) v hl
    simp only [contrib_eq _ hact, contrib_eq _ hv, hcfg] at h1
    show st.ledger.memory_mb = sumActive (fun c => c.memory_mb) (setVm st.regy id v)
    omega
  · have h1 := sumActive_setVm (fun c => c.cpu_cores) v hl
    simp only [contrib_eq _ hact, contrib_eq _ hv, hcfg] at h1
    show st.ledger.cpu_cores = sumActive (fun c => c.cpu_cores) (setVm st.regy id v)
    omega
  · have h1 := sumActive_setVm (fun c => c.disk_size_gb) v hl
    simp only [contrib_eq _ hact, contrib_eq _ hv, hcfg] at h1
    show st.ledger.disk_gb = sumActive (fun c => c.disk_size_gb) (setVm st.regy id v)
    omega
  · have h1 := sumActive_setVm (fun _ => 1) v hl
    simp only [contrib_eq _ hact, contrib_eq _ hv] at h1
    show st.ledger.ports = sumActive (fun _ => 1) (setVm st.regy id v)
    omega
  · intro e he
    rcases mem_setVm he with h2 | h2
    · exact hvm e h2
    · rw [h2]
      refine ⟨fun _ => hvp, ?_, ?_⟩
      · intro hcontra
        rw [hvrun] at hcontra
        rcases hcontra with h3 | h3 <;> cases h3
      · intro hcontra
        rw [hvrun] at hcontra
        exact absurd rfl hcontra

/-- The lifecycle invariant survives removing an inactive registry entry. -/
theorem inv_afterRemove {st : CoreState} {id : Nat} {vm : VM}
    (h : Inv st) (hl : lookupVm st.regy id = some vm) (hact : isActive vm = false) :
    Inv { st with regy := removeVm st.regy id } := by
  obtain ⟨hm, hc, hd, hp, hvm⟩ := h
  refine ⟨?_, ?_, ?_, ?_, ?_⟩
  · have h1 := sumActive_removeVm (fun c => c.memory_mb) hl
    simp only [contrib_eq_zero _ hact] at h1
    show st.ledger.memory_mb = sumActive (fun c => c.memory_mb) (removeVm st.regy id)
    omega
  · have h1 := sumActive_removeVm (fun c => c.cpu_cores) hl
    simp only [contrib_eq_zero _ hact] at h1
    show st.ledger.cpu_cores = sumActive (fun c => c.cpu_cores) (removeVm st.regy id)
    omega
  · have h1 := sumActive_removeVm (fun c => c.disk_size_gb) hl
    simp only [contrib_eq_zero _ hact] at h1
    show st.ledger.disk_gb = sumActive (fun c => c.disk_size_gb) (removeVm st.regy id)
    omega
  · have h1 := sumActive_removeVm (fun _ => 1) hl
    simp only [contrib_eq_zero _ hact] at h1
    show st.ledger.ports = sumActive (fun _ => 1) (removeVm st.regy id)
    omega
  · intro e he
    exact hvm e (mem_removeVm he)

/-- The lifecycle invariant survives a create call. -/
theorem inv_create (lim : Limits) (cfg : VmConfig) {st : CoreState} (h : Inv st) :
    Inv (create lim cfg st).2 := by
  obtain ⟨hm, hc, hd, hp, hvm⟩ := h
  unfold create
  by_cases h0 : cfg.memory_mb = 0 ∨ cfg.cpu_cores = 0
  · rw [if_pos h0]
    exact ⟨hm, hc, hd, hp, hvm⟩
  · rw [if_neg h0]
    by_cases h1 : st.regy.length < lim.max_vms
        ∧ (tryReserve lim st.ledger cfg.memory_mb cfg.cpu_cores cfg.disk_size_gb).isSome
    · rw [if_pos h1]
      have hfz : isActive (freshVm cfg) = false := by simp [isActive, freshVm]
      refine ⟨?_, ?_, ?_, ?_, ?_⟩
      · show st.ledger.memory_mb = sumActive (fun c => c.memory_mb)
          ((st.nextId, freshVm cfg) :: st.regy)
        simp only [sumActive, contrib_eq_zero _ hfz]
        omega
      · show st.ledger.cpu_cores = sumActive (fun c => c.cpu_cores)
          ((st.nextId, freshVm cfg) :: st.regy)
        simp only [sumActive, contrib_eq_zero _ hfz]
        omega
      · show st.ledger.disk_gb = sumActive (fun c => c.disk_size_gb)
          ((st.nextId, freshVm cfg) :: st.regy)
        simp only [sumActive, contrib_eq_zero _ hfz]
        omega
      · show st.ledger.ports = sumActive (fun _ => 1)
          ((st.nextId, freshVm cfg) :: st.regy)
        simp only [sumActive, contrib_eq_zero _ hfz]
        omega
      · intro e he
        rcases List.mem_cons.mp he with h2 | h2
        · rw [h2]
          refine ⟨?_, fun _ => ⟨rfl, rfl⟩, fun _ => rfl⟩
          intro hcontra
          rw [hfz] at hcontra
          cases hcontra
        · exact hvm e h2
    · rw [if_neg h1]
      exact ⟨hm, hc, hd, hp, hvm⟩

/-- The lifecycle invariant survives the reservation half of a start. -/
theorem inv_startBegin (lim : Limits) (id : Nat) {st : CoreState} (h : Inv st) :
    Inv (startBegin lim id st).2 := by
  cases hl : lookupVm st.regy id with
  | none => simpa only [startBegin, hl] using h
  | some vm =>
    cases hsv : vm.state with
    | Stopped =>
      cases ht : tryReserve lim st.ledger vm.config.memory_mb vm.config.cpu_cores
          vm.config.disk_size_gb with
      | none => simpa only [startBegin, hl, hsv, ht] using h
      | some led =>
        cases ha : allocatePort st.pool with
        | none => simpa only [startBegin, hl, hsv, ht, ha] using h
        | some pr =>
          obtain ⟨p, pool2⟩ := pr
          have hled := ht
          unfold tryReserve at hled
          split at hled
          case isTrue =>
            injection hled with hled
            subst hled
            simp only [startBegin, hl, hsv, ht, ha]
            exact inv_afterStartCommit p st.nextId pool2 _ h hl (by simp [isActive, hsv])
          case isFalse => cases hled
    | Error =>
      cases ht : tryReserve lim st.ledger vm.config.memory_mb vm.config.cpu_cores
          vm.config.disk_size_gb with
      | none => simpa only [startBegin, hl, hsv, ht] using h
      | some led =>
        cases ha : allocatePort st.pool with
        | none => simpa only [startBegin, hl, hsv, ht, ha] using h
        | some pr =>
          obtain ⟨p, pool2⟩ := pr
          have hled := ht
          unfold tryReserve at hled
          split at hled
          case isTrue =>
            injection hled with hled
            subst hled
            simp only [startBegin, hl, hsv, ht, ha]
            exact inv_afterStartCommit p st.nextId pool2 _ h hl (by simp [isActive, hsv])
          case isFalse => cases hled
    | Starting => simpa only [startBegin, hl, hsv] using h
    | Running => simpa only [startBegin, hl, hsv] using h
    | Stopping => simpa only [startBegin, hl, hsv] using h

/-- The lifecycle invariant survives the spawn half of a start. -/
theorem inv_startFinish (spawn : Except SpawnError Nat) (id : Nat) {st : CoreState}
    (h : Inv st) : Inv (startFinish spawn id st).2 := by
  cases hl : lookupVm st.regy id with
  | none => simpa only [startFinish, hl] using h
  | some vm =>
    cases hsv : vm.state with
    | Starting =>
      cases spawn with
      | ok pid =>
        have hport : vm.port ≠ none := by
          have h5 := h.2.2.2.2 (id, vm) (lookupVm_mem hl)
          exact h5.1 (by simp [isActive, hsv])
        simp only [startFinish, hl, hsv]
        exact inv_afterSwap st.nextId st.pool _ h hl (by simp [isActive, hsv])
          (by simp [isActive]) rfl hport rfl
      | error e =>
        simp only [startFinish, hl, hsv]
        exact inv_afterRelease st.nextId (releaseVmPool st.pool vm) _ h hl
          (by simp [isActive, hsv]) (by simp [isActive, failedVm]) rfl rfl rfl
    | Stopped => simpa only [startFinish, hl, hsv] using h
    | Running => simpa only [startFinish, hl, hsv] using h
    | Stopping => simpa only [startFinish, hl, hsv] using h
    | Error => simpa only [startFinish, hl, hsv] using h

/-- The lifecycle invariant survives a stop call. -/
theorem inv_stop (g : Nat) (ew : Option Nat) (id : Nat) {st : CoreState} (h : Inv st) :
    Inv (stop g ew id st).2 := by
  cases hl : lookupVm st.regy id with
  | none => simpa only [stop, hl] using h
  | some vm =>
    cases hsv : vm.state with
    | Running =>
      simp only [stop, hl, hsv]
      exact inv_afterRelease st.nextId (releaseVmPool st.pool vm) _ h hl
        (by simp [isActive, hsv]) (by simp [isActive, stoppedVm]) rfl rfl rfl
    | Stopped => simpa only [stop, hl, hsv] using h
    | Starting => simpa only [stop, hl, hsv] using h
    | Stopping => simpa only [stop, hl, hsv] using h
    | Error => simpa only [stop, hl, hsv] using h

/-- The lifecycle invariant survives a delete call. -/
theorem inv_delete (g : Nat) (ew : Option Nat) (id : Nat) {st : CoreState} (h : Inv st) :
    Inv (delete g ew id st).2 := by
  cases hl : lookupVm st.regy id with
  | none => simpa only [delete, hl] using h
  | some vm =>
    cases hsv : vm.state with
    | Running =>
      have h1 : Inv (stop g ew id st).2 := inv_stop g ew id h
      simp only [stop, hl, hsv] at h1
      simp only [delete, hl, hsv, stop]
      exact inv_afterRemove h1 (lookupVm_setVm_self _ hl) (by simp [isActive, stoppedVm])
    | Stopped =>
      simp only [delete, hl, hsv]
      exact inv_afterRemove h hl (by simp [isActive, hsv])
    | Error =>
      simp only [delete, hl, hsv]
      exact inv_afterRemove h hl (by simp [isActive, hsv])
    | Starting => simpa only [delete, hl, hsv] using h
    | Stopping => simpa only [delete, hl, hsv] using h

/-- The lifecycle invariant survives a Liveness Supervisor transition. -/
theorem inv_superviseExit (id : Nat) (r : String) {st : CoreState} (h : Inv st) :
    Inv (superviseExit id r st) := by
  cases hl : lookupVm st.regy id with
  | none => simpa only [superviseExit, hl] using h
  | some vm =>
    cases hsv : vm.state with
    | Running =>
      simp only [superviseExit, hl, hsv]
      exact inv_afterRelease st.nextId (releaseVmPool st.pool vm) _ h hl
        (by simp [isActive, hsv]) (by simp [isActive, crashedVm]) rfl rfl rfl
    | Stopped => simpa only [superviseExit, hl, hsv] using h
    | Starting => simpa only [superviseExit, hl, hsv] using h
    | Stopping => simpa only [superviseExit, hl, hsv] using h
    | Error => simpa only [superviseExit, hl, hsv] using h

/-- The lifecycle invariant is preserved by every serialized step. -/
theorem inv_step (lim : Limits) (op : Op) {st : CoreState} (h : Inv st) :
    Inv (step lim st op) := by
  cases op with
  | create cfg => exact inv_create lim cfg h
  | startBegin id => exact inv_startBegin lim id h
  | startFinish spawn id => exact inv_startFinish spawn id h
  | stop g ew id => exact inv_stop g ew id h
  | delete g ew id => exact inv_delete g ew id h
  | procExit id r => exact inv_superviseExit id r h

/-- The lifecycle invariant propagates along any list of steps. -/
theorem inv_foldl (lim : Limits) (ops : List Op) :
    ∀ st : CoreState, Inv st → Inv (List.foldl (step lim) st ops) := by
  induction ops with
  | nil => intro st h; exact h
  | cons op rest ih => intro st h; exact ih _ (inv_step lim op h)

/-- The lifecycle invariant holds at startup. -/
theorem inv_initState (ports : List Nat) : Inv (initState ports) := by
  refine ⟨rfl, rfl, rfl, rfl, ?_⟩
  intro e he
  simp [initState] at he

/-- C1: in every reachable state of the core, a Starting or Running VM holds
a console port and is accounted in the Resource Governor ledger under its
declared configuration, a Stopped or Error VM (and a fortiori an absent one)
holds neither a console port nor a process identifier, and every ledger
counter equals the sum of declared resources over the VMs currently in
Starting or Running. -/
theorem c1_lifecycle_invariant (lim : Limits) (ports : List Nat) (ops : List Op) :
    Inv (run lim ports ops) :=
  inv_foldl lim ops _ (inv_initState ports)

/-- Closed instance of C1 on a concrete operation sequence. -/
theorem c1_lifecycle_invariant_witness :
    Inv (run lim0 ports0
      [Op.create cfg0, Op.startBegin 0, Op.startFinish (Except.ok 777) 0]) :=
  c1_lifecycle_invariant lim0 ports0
    [Op.create cfg0, Op.startBegin 0, Op.startFinish (Except.ok 777) 0]

/-- C2: running create, then start, then stop, then delete on a single VM
returns the Resource Ledger counters and the Console Port Pool exactly to
their values before the create, for every initial state in which the four
calls succeed. -/
theorem c2_roundtrip (lim : Limits) (st : CoreState) (cfg : VmConfig)
    (spawn : Except SpawnError Nat) (grace : Nat) (ew : Option Nat)
    (id : Nat) (m : StopMode)
    (h1 : (create lim cfg st).1 = Except.ok id)
    (h2 : (start lim spawn id (create lim cfg st).2).1 = Except.ok ())
    (h3 : (stop grace ew id (start lim spawn id (create lim cfg st).2).2).1 = Except.ok m)
    (h4 : (delete grace ew id
        (stop grace ew id (start lim spawn id (create lim cfg st).2).2).2).1
        = Except.ok ()) :
    (delete grace ew id
        (stop grace ew id (start lim spawn id (create lim cfg st).2).2).2).2.ledger
      = st.ledger
    ∧ (delete grace ew id
        (stop grace ew id (start lim spawn id (create lim cfg st).2).2).2).2.pool
      = st.pool := by
  obtain ⟨regy0, nid0, ledger0, pool0, evs0⟩ := st
  obtain ⟨lm, lc, ld, lp⟩ := ledger0
  obtain ⟨pfree, palloc⟩ := pool0
  by_cases h0 : cfg.memory_mb = 0 ∨ cfg.cpu_cores = 0
  · simp [create, h0] at h1
  · by_cases hq : regy0.length < lim.max_vms
        ∧ (tryReserve lim { memory_mb := lm, cpu_cores := lc, disk_gb := ld, ports := lp }
            cfg.memory_mb cfg.cpu_cores cfg.disk_size_gb).isSome
    · simp [create, h0, hq] at h1
      subst h1
      obtain ⟨led, htr⟩ := Option.isSome_iff_exists.mp hq.2
      have hled := htr
      unfold tryReserve at hled
      split at hled
      · injection hled with hled
        subst hled
        cases pfree with
        | nil =>
          simp [create, h0, hq, start, startBegin, lookupVm, freshVm, htr, allocatePort] at h2
        | cons q rest =>
          cases spawn with
          | error e =>
            simp [create, h0, hq, start, startBegin, startFinish, lookupVm, setVm,
              freshVm, startingVm, htr, allocatePort] at h2
          | ok pid =>
            refine ⟨?_, ?_⟩ <;>
              simp [create, h0, hq, start, startBegin, startFinish, stop, delete,
                lookupVm, setVm, removeVm, freshVm, startingVm, stoppedVm,
                releaseVmLedger, releaseVmPool, releasePort, allocatePort, htr,
                stopMode, List.erase_cons_head, Nat.add_sub_cancel]
      · cases hled
    · simp [create, h0, hq] at h1

/-- Closed instance of C2: a full round trip from the startup state restores
the ledger and the port pool. -/
theorem c2_roundtrip_witness :
    (delete 5 none 0 (stop 5 none 0
        (start lim0 (Except.ok 777) 0 (create lim0 cfg0 (initState ports0)).2).2).2).2.ledger
      = (initState ports0).ledger
    ∧ (delete 5 none 0 (stop 5 none 0
        (start lim0 (Except.ok 777) 0 (create lim0 cfg0 (initState ports0)).2).2).2).2.pool
      = (initState ports0).pool :=
  c2_roundtrip lim0 (initState ports0) cfg0 (Except.ok 777) 5 none 0 StopMode.forced
    (by decide) (by decide) (by decide) (by decide)

/-- C3 as frozen is refuted by the spawn-failure path of start, which reports
SpawnFailed after moving the targeted VM from Stopped to Error: here is a
concrete rejected start whose final state differs from the initial one, even
though the ledger and the pool are fully rolled back. -/
theorem c3_rejected_ops_counterexample :
    (start lim0 (Except.error SpawnError.launchFailed) 0 stStopped).1
      = Except.error (VmError.spawnFailed SpawnError.launchFailed)
    ∧ (start lim0 (Except.error SpawnError.launchFailed) 0 stStopped).2 ≠ stStopped
    ∧ (lookupVm (start lim0 (Except.error SpawnError.launchFailed) 0 stStopped).2.regy 0).map
        VM.state = some LifecycleState.Error
    ∧ (lookupVm stStopped.regy 0).map VM.state = some LifecycleState.Stopped
    ∧ (start lim0 (Except.error SpawnError.launchFailed) 0 stStopped).2.ledger
      = stStopped.ledger
    ∧ (start lim0 (Except.error SpawnError.launchFailed) 0 stStopped).2.pool
      = stStopped.pool := by
  refine ⟨by decide, by decide, by decide, by decide, by decide, by decide⟩

/-- C3 (amended): every mutating operation that returns an error leaves the
Resource Ledger and the Console Port Pool exactly as they were; a NotFound,
InvalidConfig, QuotaExceeded, InvalidTransition or PortExhausted rejection
also leaves the whole state (hence the targeted VM) untouched; a SpawnFailed
rejection rolls the ledger and the pool fully back but leaves the targeted
VM in Error with no port and no process identifier. -/
theorem c3_rejected_ops_amended (lim : Limits) (cfg : VmConfig)
    (spawn : Except SpawnError Nat) (grace : Nat) (ew : Option Nat) (id : Nat)
    (st : CoreState) :
    (∀ e st2, create lim cfg st = (Except.error e, st2) → st2 = st)
    ∧ (∀ e st2, start lim spawn id st = (Except.error e, st2) →
        st2.ledger = st.ledger ∧ st2.pool = st.pool
        ∧ ((∀ se, e ≠ VmError.spawnFailed se) → st2 = st)
        ∧ (∀ se, e = VmError.spawnFailed se →
            ∃ vm2, lookupVm st2.regy id = some vm2 ∧ vm2.state = LifecycleState.Error
              ∧ vm2.port = none ∧ vm2.pid = none))
    ∧ (∀ e st2, stop grace ew id st = (Except.error e, st2) → st2 = st)
    ∧ (∀ e st2, delete grace ew id st = (Except.error e, st2) → st2 = st) := by
  refine ⟨?_, ?_, ?_, ?_⟩
  · intro e st2 h
    unfold create at h
    split at h
    · injection h with h1 h2
      exact h2.symm
    · split at h
      · injection h with h1 h2
        cases h1
      · injection h with h1 h2
        exact h2.symm
  · intro e st2 h
    cases hl : lookupVm st.regy id with
    | none =>
      simp only [start, startBegin, hl] at h
      injection h with h1 h2
      injection h1 with h1
      subst h1
      subst h2
      refine ⟨rfl, rfl, fun _ => rfl, fun se hse => ?_⟩
      cases hse
    | some vm =>
      cases hsv : vm.state with
      | Starting =>
        simp only [start, startBegin, hl, hsv] at h
        injection h with h1 h2
        injection h1 with h1
        subst h1
        subst h2
        exact ⟨rfl, rfl, fun _ => rfl, fun se hse => by cases hse⟩
      | Running =>
        simp only [start, startBegin, hl, hsv] at h
        injection h with h1 h2
        injection h1 with h1
        subst h1
        subst h2
        exact ⟨rfl, rfl, fun _ => rfl, fun se hse => by cases hse⟩
      | Stopping =>
        simp only [start, startBegin, hl, hsv] at h
        injection h with h1 h2
        injection h1 with h1
        subst h1
        subst h2
        exact ⟨rfl, rfl, fun _ => rfl, fun se hse => by cases hse⟩
      | Stopped =>
        cases htr : tryReserve lim st.ledger vm.config.memory_mb vm.config.cpu_cores
            vm.config.disk_size_gb with
        | none =>
          simp only [start, startBegin, hl, hsv, htr] at h
          injection h with h1 h2
          injection h1 with h1
          subst h1
          subst h2
          exact ⟨rfl, rfl, fun _ => rfl, fun se hse => by cases hse⟩
        | some led =>
          cases hfree : st.pool.free with
          | nil =>
            simp only [start, startBegin, hl, hsv, htr, allocatePort, hfree] at h
            injection h with h1 h2
            injection h1 with h1
            subst h1
            subst h2
            exact ⟨rfl, rfl, fun _ => rfl, fun se hse => by cases hse⟩
          | cons q rest =>
            have hl1 : lookupVm (setVm st.regy id (startingVm vm q)) id
                = some (startingVm vm q) := lookupVm_setVm_self _ hl
            have hsv1 : (startingVm vm q).state = LifecycleState.Starting := rfl
            cases spawn with
            | ok pid =>
              simp only [start, startBegin, startFinish, hl, hsv, htr, allocatePort,
                hfree, hl1, hsv1] at h
              injection h with h1 h2
              cases h1
            | error se0 =>
              have hled := htr
              unfold tryReserve at hled
              split at hled
              · injection hled with hled
                subst hled
                simp only [start, startBegin, startFinish, hl, hsv, htr, allocatePort,
                  hfree, hl1, hsv1] at h
                injection h with h1 h2
                injection h1 with h1
                subst h1
                subst h2
                refine ⟨?_, ?_, ?_, ?_⟩
                · show releaseVmLedger _ (startingVm vm q) = st.ledger
                  unfold releaseVmLedger startingVm
                  cases hsl : st.ledger
                  simp [Nat.add_sub_cancel]
                · show releaseVmPool _ (startingVm vm q) = st.pool
                  unfold releaseVmPool startingVm releasePort
                  cases hsp : st.pool with
                  | mk f a =>
                    rw [hsp] at hfree
                    simp only at hfree
                    subst hfree
                    simp [List.erase_cons_head]
                · intro hne
                  exact absurd rfl (hne se0)
                · intro se hse
                  refine ⟨failedVm (startingVm vm q), ?_, rfl, rfl, rfl⟩
                  exact lookupVm_setVm_self _ hl1
              · cases hled
      | Error =>
        cases htr : tryReserve lim st.ledger vm.config.memory_mb vm.config.cpu_cores
            vm.config.disk_size_gb with
        | none =>
          simp only [start, startBegin, hl, hsv, htr] at h
          injection h with h1 h2
          injection h1 with h1
          subst h1
          subst h2
          exact ⟨rfl, rfl, fun _ => rfl, fun se hse => by cases hse⟩
        | some led =>
          cases hfree : st.pool.free with
          | nil =>
            simp only [start, startBegin, hl, hsv, htr, allocatePort, hfree] at h
            injection h with h1 h2
            injection h1 with h1
            subst h1
            subst h2
            exact ⟨rfl, rfl, fun _ => rfl, fun se hse => by cases hse⟩
          | cons q rest =>
            have hl1 : lookupVm (setVm st.regy id (startingVm vm q)) id
                = some (startingVm vm q) := lookupVm_setVm_self _ hl
            have hsv1 : (startingVm vm q).state = LifecycleState.Starting := rfl
            cases spawn with
            | ok pid =>
              simp only [start, startBegin, startFinish, hl, hsv, htr, allocatePort,
                hfree, hl1, hsv1] at h
              injection h with h1 h2
              cases h1
            | error se0 =>
              have hled := htr
              unfold tryReserve at hled
              split at hled
              · injection hled with hled
                subst hled
                simp only [start, startBegin, startFinish, hl, hsv, htr, allocatePort,
                  hfree, hl1, hsv1] at h
                injection h with h1 h2
                injection h1 with h1
                subst h1
                subst h2
                refine ⟨?_, ?_, ?_, ?_⟩
                · show releaseVmLedger _ (startingVm vm q) = st.ledger
                  unfold releaseVmLedger startingVm
                  cases hsl : st.ledger
                  simp [Nat.add_sub_cancel]
                · show releaseVmPool _ (startingVm vm q) = st.pool
                  unfold releaseVmPool startingVm releasePort
                  cases hsp : st.pool with
                  | mk f a =>
                    rw [hsp] at hfree
                    simp only at hfree
                    subst hfree
                    simp [List.erase_cons_head]
                · intro hne
                  exact absurd rfl (hne se0)
                · intro se hse
                  refine ⟨failedVm (startingVm vm q), ?_, rfl, rfl, rfl⟩
                  exact lookupVm_setVm_self _ hl1
              · cases hled
  · intro e st2 h
    cases hl : lookupVm st.regy id with
    | none =>
      simp only [stop, hl] at h
      injection h with h1 h2
      exact h2.symm
    | some vm =>
      cases hsv : vm.state with
      | Running =>
        simp only [stop, hl, hsv] at h
        injection h with h1 h2
        cases h1
      | Stopped => simp only [stop, hl, hsv] at h; injection h with h1 h2; exact h2.symm
      | Starting => simp only [stop, hl, hsv] at h; injection h with h1 h2; exact h2.symm
      | Stopping => simp only [stop, hl, hsv] at h; injection h with h1 h2; exact h2.symm
      | Error => simp only [stop, hl, hsv] at h; injection h with h1 h2; exact h2.symm
  · intro e st2 h
    cases hl : lookupVm st.regy id with
    | none =>
      simp only [delete, hl] at h
      injection h with h1 h2
      exact h2.symm
    | some vm =>
      cases hsv : vm.state with
      | Running =>
        simp only [delete, stop, hl, hsv] at h
        injection h with h1 h2
        cases h1
      | Stopped => simp only [delete, hl, hsv] at h; injection h with h1 h2; cases h1
      | Error => simp only [delete, hl, hsv] at h; injection h with h1 h2; cases h1
      | Starting => simp only [delete, hl, hsv] at h; injection h with h1 h2; exact h2.symm
      | Stopping => simp only [delete, hl, hsv] at h; injection h with h1 h2; exact h2.symm

/-- Closed instance of the amended C3: a rejected delete of an unknown id
leaves the state untouched. -/
theorem c3_rejected_ops_amended_witness :
    delete 5 none 3 stStopped = (Except.error VmError.notFound, stStopped)
    ∧ stStopped = stStopped :=
  ⟨by decide, (c3_rejected_ops_amended lim0 cfg0 (Except.ok 1) 5 none 3 stStopped).2.2.2
      VmError.notFound stStopped (by decide)⟩

/-- C4: when the Liveness Supervisor observes an out-of-band process exit of
a Running VM it releases the reservation and the console port exactly once,
moves the VM to Error carrying the captured exit reason with no process and
no port, emits exactly one event, and neither a second supervisor pass nor a
racing stop releases anything again. -/
theorem c4_liveness_supervisor (id : Nat) (r r2 : String) (grace : Nat)
    (ew : Option Nat) (st : CoreState) (vm : VM)
    (hl : lookupVm st.regy id = some vm) (hrun : vm.state = LifecycleState.Running) :
    (∃ vm2, lookupVm (superviseExit id r st).regy id = some vm2
      ∧ vm2.state = LifecycleState.Error ∧ vm2.exitReason = some r
      ∧ vm2.pid = none ∧ vm2.port = none)
    ∧ (superviseExit id r st).ledger = releaseVmLedger st.ledger vm
    ∧ (∀ p, vm.port = some p → (superviseExit id r st).pool = releasePort st.pool p)
    ∧ (superviseExit id r st).events = st.events ++ [Event.unexpectedExit id r]
    ∧ superviseExit id r2 (superviseExit id r st) = superviseExit id r st
    ∧ stop grace ew id (superviseExit id r st)
      = (Except.error VmError.invalidTransition, superviseExit id r st) := by
  have hl2 : lookupVm (setVm st.regy id (crashedVm vm r)) id = some (crashedVm vm r) :=
    lookupVm_setVm_self _ hl
  have hsv2 : (crashedVm vm r).state = LifecycleState.Error := rfl
  refine ⟨?_, ?_, ?_, ?_, ?_, ?_⟩
  · simp only [superviseExit, hl, hrun]
    exact ⟨crashedVm vm r, hl2, rfl, rfl, rfl, rfl⟩
  · simp only [superviseExit, hl, hrun]
  · intro p hp
    simp only [superviseExit, hl, hrun, releaseVmPool, hp]
  · simp only [superviseExit, hl, hrun]
  · conv_lhs => rw [superviseExit]
    simp only [superviseExit, hl, hrun, hl2, hsv2]
  · conv_lhs => rw [stop]
    simp only [superviseExit, hl, hrun, hl2, hsv2]

/-- Closed instance of C4: a second supervisor pass after a captured crash
changes nothing. -/
theorem c4_liveness_supervisor_witness :
    superviseExit 0 "again" (superviseExit 0 "qemu exited" stRunning)
      = superviseExit 0 "qemu exited" stRunning :=
  (c4_liveness_supervisor 0 "qemu exited" "again" 5 none stRunning vmRunning0
    (by decide) rfl).2.2.2.2.1

/-- C5: Resource Governor admission is all-or-nothing: the reservation fails
exactly when some single dimension would exceed its ceiling, in which case
no counter changes, and a successful reservation commits every dimension at
once while leaving the port counter alone. -/
theorem c5_try_reserve (lim : Limits) (led : Ledger) (m v d : Nat) :
    (tryReserve lim led m v d = none ↔
      lim.max_memory_mb < led.memory_mb + m ∨ lim.max_cpu_cores < led.cpu_cores + v
        ∨ lim.max_disk_gb < led.disk_gb + d)
    ∧ (∀ led2, tryReserve lim led m v d = some led2 →
        led2 = { memory_mb := led.memory_mb + m, cpu_cores := led.cpu_cores + v,
                 disk_gb := led.disk_gb + d, ports := led.ports }) := by
  constructor
  · constructor
    · intro hn
      unfold tryReserve at hn
      split at hn
      · cases hn
      · rename_i hcond
        omega
    · intro hgt
      unfold tryReserve
      rw [if_neg (by omega)]
  · intro led2 hs
    unfold tryReserve at hs
    split at hs
    · injection hs with hs
      exact hs.symm
    · cases hs

/-- Closed instance of C5: a reservation exceeding the aggregate memory
ceiling fails. -/
theorem c5_try_reserve_witness :
    tryReserve lim0 { memory_mb := 0, cpu_cores := 0, disk_gb := 0, ports := 0 }
      40000 1 10 = none :=
  (c5_try_reserve lim0 { memory_mb := 0, cpu_cores := 0, disk_gb := 0, ports := 0 }
    40000 1 10).1.mpr (Or.inl (by decide))

/-- C6: deleting an id that is not in the registry fails with NotFound and
changes nothing, and after a successful delete a second delete of the same
id fails with NotFound. -/
theorem c6_delete_unknown (grace : Nat) (ew : Option Nat) (id : Nat) (st : CoreState)
    (hnd : (st.regy.map Prod.fst).Nodup) :
    (lookupVm st.regy id = none →
      delete grace ew id st = (Except.error VmError.notFound, st))
    ∧ (∀ st2, delete grace ew id st = (Except.ok (), st2) →
        delete grace ew id st2 = (Except.error VmError.notFound, st2)) := by
  constructor
  · intro hl
    simp only [delete, hl]
  · intro st2 h
    cases hl : lookupVm st.regy id with
    | none =>
      simp only [delete, hl] at h
      injection h with h1 h2
      cases h1
    | some vm =>
      cases hsv : vm.state with
      | Running =>
        simp only [delete, hl, hsv, stop] at h
        injection h with h1 h2
        subst h2
        have hnone : lookupVm (removeVm (setVm st.regy id (stoppedVm vm)) id) id = none := by
          apply lookupVm_removeVm_self
          rw [keys_setVm]
          exact hnd
        simp only [delete, hnone]
      | Stopped =>
        simp only [delete, hl, hsv] at h
        injection h with h1 h2
        subst h2
        simp only [delete, lookupVm_removeVm_self hnd]
      | Error =>
        simp only [delete, hl, hsv] at h
        injection h with h1 h2
        subst h2
        simp only [delete, lookupVm_removeVm_self hnd]
      | Starting =>
        simp only [delete, hl, hsv] at h
        injection h with h1 h2
        cases h1
      | Stopping =>
        simp only [delete, hl, hsv] at h
        injection h with h1 h2
        cases h1

/-- Closed instance of C6: deleting an absent id is rejected with NotFound. -/
theorem c6_delete_unknown_witness :
    delete 5 none 7 stStopped = (Except.error VmError.notFound, stStopped) :=
  (c6_delete_unknown 5 none 7 stStopped (by decide)).1 (by decide)

/-- C7: once a winning start has moved a Stopped VM off Stopped, the losing
serialized start on the same VM observes InvalidTransition and changes
nothing. -/
theorem c7_concurrent_start (lim : Limits) (spawn spawn2 : Except SpawnError Nat)
    (id : Nat) (st st2 : CoreState) (vm : VM)
    (hl : lookupVm st.regy id = some vm) (hst : vm.state = LifecycleState.Stopped)
    (hwin : start lim spawn id st = (Except.ok (), st2)) :
    start lim spawn2 id st2 = (Except.error VmError.invalidTransition, st2) := by
  cases htr : tryReserve lim st.ledger vm.config.memory_mb vm.config.cpu_cores
      vm.config.disk_size_gb with
  | none =>
    simp only [start, startBegin, hl, hst, htr] at hwin
    injection hwin with hw1 hw2
    cases hw1
  | some led =>
    cases hfree : st.pool.free with
    | nil =>
      simp only [start, startBegin, hl, hst, htr, allocatePort, hfree] at hwin
      injection hwin with hw1 hw2
      cases hw1
    | cons q rest =>
      have hl1 : lookupVm (setVm st.regy id (startingVm vm q)) id
          = some (startingVm vm q) := lookupVm_setVm_self _ hl
      have hsv1 : (startingVm vm q).state = LifecycleState.Starting := rfl
      cases spawn with
      | error e =>
        simp only [start, startBegin, startFinish, hl, hst, htr, allocatePort,
          hfree, hl1, hsv1] at hwin
        injection hwin with hw1 hw2
        cases hw1
      | ok pid =>
        simp only [start, startBegin, startFinish, hl, hst, htr, allocatePort,
          hfree, hl1, hsv1] at hwin
        injection hwin with hw1 hw2
        subst hw2
        have hl3 : lookupVm (setVm (setVm st.regy id (startingVm vm q)) id
            { startingVm vm q with state := LifecycleState.Running, pid := some pid }) id
            = some { startingVm vm q with state := LifecycleState.Running, pid := some pid } :=
          lookupVm_setVm_self _ hl1
        simp only [start, startBegin, hl3]

/-- Closed instance of C7: the second of two starts on the same Stopped VM
observes InvalidTransition. -/
theorem c7_concurrent_start_witness :
    start lim0 (Except.ok 888) 0 (start lim0 (Except.ok 777) 0 stStopped).2
      = (Except.error VmError.invalidTransition, (start lim0 (Except.ok 777) 0 stStopped).2) :=
  c7_concurrent_start lim0 (Except.ok 777) (Except.ok 888) 0 stStopped
    (start lim0 (Except.ok 777) 0 stStopped).2 (freshVm cfg0) (by decide) rfl (by decide)

/-- C8: a stop issued with the grace period configured to zero still
succeeds and parks the VM in Stopped with port and process released; when
the process does not exit on its own in time the forced-termination
fallback engages, reported as a normal completion, never as an error. -/
theorem c8_stop_zero_grace (ew : Option Nat) (id : Nat) (st : CoreState) (vm : VM)
    (hl : lookupVm st.regy id = some vm) (hrun : vm.state = LifecycleState.Running) :
    (∃ m st2, stop 0 ew id st = (Except.ok m, st2)
      ∧ ∃ vm2, lookupVm st2.regy id = some vm2 ∧ vm2.state = LifecycleState.Stopped
          ∧ vm2.pid = none ∧ vm2.port = none)
    ∧ (ew = none → (stop 0 ew id st).1 = Except.ok StopMode.forced)
    ∧ (∀ t, ew = some t → 0 < t → (stop 0 ew id st).1 = Except.ok StopMode.forced) := by
  simp only [stop, hl, hrun]
  refine ⟨⟨stopMode 0 ew, _, rfl, stoppedVm vm, lookupVm_setVm_self _ hl, rfl, rfl, rfl⟩,
    ?_, ?_⟩
  · intro he
    subst he
    rfl
  · intro t het hpos
    subst het
    simp only [stopMode]
    rw [if_neg (by omega)]

/-- Closed instance of C8: stopping a Running VM with grace period zero and
no voluntary exit reports a forced stop. -/
theorem c8_stop_zero_grace_witness :
    (stop 0 none 0 stRunning).1 = Except.ok StopMode.forced :=
  (c8_stop_zero_grace none 0 stRunning vmRunning0 (by decide) rfl).2.1 rfl

/-- C9: VMApi.request never returns a value on a non-ok response; on an ok
response it returns the parsed JSON body; on a non-ok response it throws an
Error whose message is the error field of the body when that parses as JSON
with a truthy error, and the string HTTP followed by the status otherwise. -/
theorem c9_request_error_contract (resp : HttpResponse) :
    (∀ body, request resp = Except.ok body → resp.ok = true)
    ∧ (resp.ok = true → ∀ body, resp.json = Except.ok body →
        request resp = Except.ok body)
    ∧ (resp.ok = false → ∀ body s, resp.json = Except.ok body → body.error = some s →
        s ≠ "" → request resp = Except.error s)
    ∧ (resp.ok = false →
        (∀ body, resp.json = Except.ok body → jsTruthy body.error = false) →
        request resp = Except.error ("HTTP " ++ toString resp.status)) := by
  refine ⟨?_, ?_, ?_, ?_⟩
  · intro body h
    cases ho : resp.ok with
    | true => rfl
    | false =>
      unfold request at h
      rw [ho] at h
      simp only [Bool.false_eq_true, if_false] at h
      cases h
  · intro ho body hj
    unfold request
    rw [ho, hj]
    simp
  · intro ho body s hj hs hne
    simp [request, requestErrorMsg, ho, hj, hs, hne]
  · intro ho hfa
    cases hj : resp.json with
    | error msg => simp [request, requestErrorMsg, ho, hj]
    | ok body =>
      have hf := hfa body hj
      cases hb : body.error with
      | none => simp [request, requestErrorMsg, ho, hj, hb]
      | some s =>
        rw [hb] at hf
        by_cases hse : s = ""
        · simp [request, requestErrorMsg, ho, hj, hb, hse]
        · rw [show jsTruthy (some s) = true from by simp [jsTruthy, hse]] at hf
          cases hf

/-- Closed instance of C9: a 404 whose body carries a truthy error field
surfaces that error text. -/
theorem c9_request_error_contract_witness :
    request respNotFound = Except.error "VM not found" :=
  (c9_request_error_contract respNotFound).2.2.1
    rfl { error := some "VM not found", tag := 0 } "VM not found" rfl rfl (by decide)

/-- C10: openConsole requests the VNC URL, and hence can construct a
console, exactly when the state field is the exact string running or the
exact string Running; for every other value it only shows an error. -/
theorem c10_open_console_guard (v : JsVal) (vnc : Except String String) :
    (¬ (v = JsVal.str "running" ∨ v = JsVal.str "Running") →
      openConsole v vnc = [UiStep.showError "VM must be running to open console"]
      ∧ UiStep.vncUrlRequest ∉ openConsole v vnc
      ∧ UiStep.consoleConstructed ∉ openConsole v vnc)
    ∧ (UiStep.vncUrlRequest ∈ openConsole v vnc →
        v = JsVal.str "running" ∨ v = JsVal.str "Running") := by
  constructor
  · intro hne
    have h1 : strictEqString v "running" = false := by
      cases v with
      | nonstr => rfl
      | str s =>
        have hs : ¬ s = "running" := fun hcontra => hne (Or.inl (by rw [hcontra]))
        simp [strictEqString, hs]
    have h2 : strictEqString v "Running" = false := by
      cases v with
      | nonstr => rfl
      | str s =>
        have hs : ¬ s = "Running" := fun hcontra => hne (Or.inr (by rw [hcontra]))
        simp [strictEqString, hs]
    refine ⟨?_, ?_, ?_⟩ <;> simp [openConsole, h1, h2]
  · intro hmem
    by_contra hne
    have h1 : strictEqString v "running" = false := by
      cases v with
      | nonstr => rfl
      | str s =>
        have hs : ¬ s = "running" := fun hcontra => hne (Or.inl (by rw [hcontra]))
        simp [strictEqString, hs]
    have h2 : strictEqString v "Running" = false := by
      cases v with
      | nonstr => rfl
      | str s =>
        have hs : ¬ s = "Running" := fun hcontra => hne (Or.inr (by rw [hcontra]))
        simp [strictEqString, hs]
    rw [show openConsole v vnc = [UiStep.showError "VM must be running to open console"]
      from by simp [openConsole, h1, h2]] at hmem
    simp at hmem

/-- Closed instance of C10: a VM whose state is the string stopped gets an
error and no VNC request. -/
theorem c10_open_console_guard_witness :
    openConsole (JsVal.str "stopped") (Except.ok "ws://x")
      = [UiStep.showError "VM must be running to open console"]
    ∧ UiStep.vncUrlRequest ∉ openConsole (JsVal.str "stopped") (Except.ok "ws://x")
    ∧ UiStep.consoleConstructed ∉ openConsole (JsVal.str "stopped") (Except.ok "ws://x") :=
  (c10_open_console_guard (JsVal.str "stopped") (Except.ok "ws://x")).1 (by decide)

end Aegis
